import Mathlib

/-!
Verification of the BioBombe latent-feature interpretation code
(`scripts/latent.py` and the synonym-map construction of
`8.gtex-interpret/scripts/nbconverted/1B.download-hematopoietic-data.py`)
against its natural-language specification.

The Python code is shallowly embedded: pandas DataFrames become lists,
missing values (NaN) become `Option`, Python `dict(zip(...))` becomes an
association list with last-binding-wins lookup, and exceptions become
`Except String`.
-/

namespace BioBombe

/-! ## Generic helpers: Python dict and string operations -/

/-- Lookup in an association list built like Python `dict(zip(keys, vals))`:
a later binding of the same key overwrites an earlier one. -/
def pyDictGet {κ ν : Type} [DecidableEq κ] : List (κ × ν) → κ → Option ν
  | [], _ => none
  | (k', v) :: rest, k =>
    match pyDictGet rest k with
    | some v' => some v'
    | none => if k = k' then some v else none

/-- `startsWithL needle hay` is true when `needle` is an initial segment of
`hay` (character lists). -/
def startsWithL : List Char → List Char → Bool
  | [], _ => true
  | _ :: _, [] => false
  | a :: as, b :: bs => a == b && startsWithL as bs

/-- Substring containment on character lists; models the (non-regex content
of) pandas `str.contains` for a plain token. -/
def containsSub (needle : List Char) : List Char → Bool
  | [] => needle.isEmpty
  | c :: rest => startsWithL needle (c :: rest) || containsSub needle rest

/-- Character-wise lowercasing; models Python `str.lower()` for ASCII. -/
def strLowerL (s : List Char) : List Char := s.map Char.toLower

/-! ## Fisher exact test (`scipy.stats.fisher_exact`, two-sided default)

The table `[[a, b], [c, d]]` has row margins `a+b`, `c+d` and first column
margin `a+c`.  The two-sided p-value is the total hypergeometric probability
of all tables with the same margins whose point probability does not exceed
that of the observed table; the returned odds ratio is the sample odds ratio
`(a*d)/(b*c)`.  All arithmetic is exact over `ℚ`. -/

/-- Numerator of the two-sided Fisher exact p-value of `[[a, b], [c, d]]`.
A table with the same margins and top-left cell `k` has hypergeometric
probability `C(r1, k) * C(r2, c1 - k) / C(r1 + r2, c1)`; all such tables
share the positive denominator `C(r1 + r2, c1)`, so comparing probabilities
is comparing the numerators `w k`.  The two-sided test sums the
probabilities of all tables at most as probable as the observed one. -/
def fisher_numer (a b c d : ℕ) : ℕ :=
  let r1 := a + b
  let r2 := c + d
  let c1 := a + c
  let w := fun (k : ℕ) => r1.choose k * r2.choose (c1 - k)
  ((List.range (c1 + 1)).map (fun k => if w k ≤ w a then w k else 0)).sum

/-- Common denominator of the hypergeometric probabilities of all tables
with the margins of `[[a, b], [c, d]]`. -/
def fisher_denom (a b c d : ℕ) : ℕ := (a + b + (c + d)).choose (a + c)

/-- Two-sided Fisher exact p-value of the table `[[a, b], [c, d]]`. -/
def fisher_two_sided (a b c d : ℕ) : ℚ :=
  (fisher_numer a b c d : ℚ) / (fisher_denom a b c d : ℚ)

/-- `scipy.stats.fisher_exact [[a,b],[c,d]]` with the default two-sided
alternative: rejects negative cells (scipy raises `ValueError`), otherwise
returns `(odds ratio, p-value)`.  (scipy returns `inf` when `b*c = 0`;
in this repository's only call site `b` and `c` are always at least 1,
so the `ℚ` convention `x / 0 = 0` is never exercised.) -/
def fisher_exact (a b c d : ℤ) : Except String (ℚ × ℚ) :=
  if 0 ≤ a ∧ 0 ≤ b ∧ 0 ≤ c ∧ 0 ≤ d then
    .ok (((a * d : ℤ) : ℚ) / ((b * c : ℤ) : ℚ),
         fisher_two_sided a.toNat b.toNat c.toNat d.toNat)
  else
    .error "ValueError: All values in table must be nonnegative."

/-! ## `run_overrepresentation` (latent.py lines 495-534)

The caller-visible state of the three arguments is modelled explicitly:
Python's `background_genes += gene_list` extends the caller's list in place
(before the local name is rebound to a set), while `gene_list` and
`gene_set_dict` are never mutated. -/

/-- The three mutable arguments of `run_overrepresentation`. -/
structure OverrepState where
  gene_list : List String
  gene_set_dict : List (String × List String)
  background_genes : List String
deriving DecidableEq

/-- One iteration of the loop body of `run_overrepresentation`: membership
counts are set cardinalities (`set(...)` is modelled by `List.dedup`), the
contingency table is `[[m+1, N-m+1], [P-m+1, G-N-P+m+1]]`, and the row
records `(gene_set_name, pvalue, oddsratio)` as in the transposed result
DataFrame. -/
def overrep_row (gene_list : List String) (G : ℕ) (gs : String × List String) :
    Except String (String × ℚ × ℚ) :=
  let gene_set := gs.2.dedup
  let candidate_set := gene_list.dedup
  let m := (gene_set.filter (fun g => g ∈ candidate_set)).length
  let N := candidate_set.length
  let P := gene_set.length
  (fisher_exact ((m : ℤ) + 1) ((N : ℤ) - m + 1) ((P : ℤ) - m + 1)
      ((G : ℤ) - N - P + m + 1)).map
    (fun op => (gs.1, op.2, op.1))

/-- `run_overrepresentation(gene_list, gene_set_dict, background_genes)`.
The first component of the result is the post-call state of the three
arguments (only `background_genes` changes, via `+=`); the second is the
returned table, or the first raised exception. -/
def run_overrepresentation (st : OverrepState) :
    OverrepState × Except String (List (String × ℚ × ℚ)) :=
  let background := st.background_genes ++ st.gene_list
  let G := background.dedup.length
  ({ st with background_genes := background },
   st.gene_set_dict.mapM (overrep_row st.gene_list G))

/-! ## `get_high_weight_genes` (latent.py lines 111-138)

Per column (latent feature) the code computes `feature_mean + std_dev * std`
and `feature_mean - std_dev * std` (pandas `mean`/`std`, the latter with
`ddof = 1`, the sample standard deviation) and flags each weight with
`ge`/`le`.  One column is modelled as a list of rational weights; the flag of
a cell is a proposition over `ℝ` because the standard deviation is a square
root. -/

/-- Column mean, as computed by pandas `DataFrame.mean` on a column with no
missing values. -/
def colMean (col : List ℚ) : ℚ := col.sum / (col.length : ℚ)

/-- Sample variance (denominator `n - 1`), the square of pandas
`DataFrame.std` with its default `ddof = 1`. -/
def sampleVar (col : List ℚ) : ℚ :=
  ((col.map (fun x => (x - colMean col) ^ 2)).sum) / ((col.length : ℚ) - 1)

/-- Cell of `pos_high_w_df`: `w_df.ge(feature_mean + std_dev * w_df.std())`
for the weight `x` of one gene in the column `col`. -/
def pos_high_w_cell (col : List ℚ) (std_dev x : ℚ) : Prop :=
  (x : ℝ) ≥ (colMean col : ℝ) + (std_dev : ℝ) * Real.sqrt ((sampleVar col : ℚ) : ℝ)

/-- Cell of `neg_high_w_df`: `w_df.le(feature_mean - std_dev * w_df.std())`
for the weight `x` of one gene in the column `col`. -/
def neg_high_w_cell (col : List ℚ) (std_dev x : ℚ) : Prop :=
  (x : ℝ) ≤ (colMean col : ℝ) - (std_dev : ℝ) * Real.sqrt ((sampleVar col : ℚ) : ℝ)

/-! ## `translate_gene_ids` and `_load_gene_dict` (latent.py lines 93-109 and
166-196)

The gene dictionary is fetched lazily from a URL; the network fetch is an
external collaborator, so the table the fetch would return is passed in as
the explicit argument `fetched`.  `_load_gene_dict` keeps only the
protein-coding rows and sets the loaded flag.  A gene identifier is either a
numeric entrez id or a symbol string. -/

/-- A gene identifier: numeric entrez id or symbol. -/
abbrev Gid := ℤ ⊕ String

/-- One row of the cognoma `genes.tsv` table (the columns the code uses). -/
structure RawGeneRow where
  gene_type : String
  entrez_gene_id : ℤ
  symbol : String
deriving DecidableEq

/-- The state of a `latentModel` that `translate_gene_ids` can read or
write: the lazily loaded gene dictionary and its flag. -/
structure LMDictState where
  is_gene_dictionary_loaded : Bool
  gene_dictionary_df : Option (List RawGeneRow)
deriving DecidableEq

/-- The only namespaces `translate_gene_ids` accepts. -/
def translate_choices : List String := ["entrez_gene_id", "symbol"]

/-- Column selection `df.loc[:, name]` for the two columns the translator
uses (only ever called with `name` in `translate_choices`). -/
def getColumn (name : String) (r : RawGeneRow) : Gid :=
  if name = "entrez_gene_id" then .inl r.entrez_gene_id else .inr r.symbol

/-- `gene_mapper = dict(zip(df[translate_from], df[translate_to]))`. -/
def gene_mapper (df : List RawGeneRow) (translate_from translate_to : String) :
    List (Gid × Gid) :=
  df.map (fun r => (getColumn translate_from r, getColumn translate_to r))

/-- `_load_gene_dict`: filter the fetched table to protein-coding genes,
store it, and set the flag. -/
def load_gene_dict (fetched : List RawGeneRow) (_st : LMDictState) : LMDictState :=
  { is_gene_dictionary_loaded := true,
    gene_dictionary_df := some (fetched.filter (fun r => r.gene_type == "protein-coding")) }

/-- `translate_gene_ids(gene_list, translate_from, translate_to)`: the
namespace check happens first (raising `ValueError` and leaving the state
untouched), then the dictionary is loaded if it was not already, then each
identifier is mapped through the dictionary (`Series.map` of a dict sends
missing keys to NaN, modelled as `none`).  Returns the post-call model state
and the result. -/
def translate_gene_ids (st : LMDictState) (fetched : List RawGeneRow)
    (gene_list : List Gid) (translate_from translate_to : String) :
    LMDictState × Except String (List (Option Gid)) :=
  if translate_from ∉ translate_choices ∨ translate_to ∉ translate_choices then
    (st, .error "Translation for 'entrez_gene_id' and 'symbol' only")
  else
    let st' := if st.is_gene_dictionary_loaded then st else load_gene_dict fetched st
    let df := st'.gene_dictionary_df.getD []
    (st', .ok (gene_list.map (pyDictGet (gene_mapper df translate_from translate_to))))

/-! ## `latentModel.__init__` column filtering (latent.py lines 51-66)

`self.w_df.index = self.w_df.index.map(str)` normalizes row keys to strings;
if `algorithm_name` is truthy (Python: not `None` and not the empty string)
it is lowercased and the columns whose names contain it are kept — pandas
`str.contains` is case-sensitive, so only the token is lowercased, not the
column names. -/

/-- Row-key normalization `index.map(str)`. -/
def norm_index {ι : Type} (idx : List ι) (toStr : ι → String) : List String :=
  idx.map toStr

/-- Column retention of `__init__`: `algorithm_name.lower()` then
`columns.str.contains(...)`. -/
def init_filter_columns (cols : List String) : Option String → List String
  | none => cols
  | some algorithm_name =>
    if algorithm_name.data = [] then cols
    else cols.filter (fun c => containsSub (strLowerL algorithm_name.data) c.data)

/-- Case-insensitive containment, the comparison the specification describes
(not the one the code performs). -/
def ci_contains (needle hay : String) : Bool :=
  containsSub (strLowerL needle.data) (strLowerL hay.data)

/-! ## Synonym-map construction
(1B.download-hematopoietic-data.py lines 63-113)

`gene_df` (protein-coding only) gives `symbol_to_entrez`; the pipe-split
synonyms are exploded into one row per (gene, synonym);
`drop_duplicates(['all_synonyms'], keep=False)` removes every row whose
synonym value occurs more than once; the pandas query
`'symbol not in all_synonyms'` keeps the rows whose primary symbol does not
occur anywhere in the (already deduplicated) synonym column
(`Series.isin` semantics); finally `symbol_to_entrez.update(synonym_to_entrez)`. -/

/-- One gene of the curated table after the synonym split: primary symbol,
entrez id, pipe-split synonym list (genes whose `synonyms` field was NaN are
modelled with an empty list and contribute no exploded rows). -/
structure GeneEntry where
  symbol : String
  entrez : ℕ
  synonyms : List String
deriving DecidableEq

/-- `symbol_to_entrez = dict(zip(gene_df.symbol, gene_df.entrez_gene_id))`. -/
def symbol_to_entrez (genes : List GeneEntry) : List (String × ℕ) :=
  genes.map (fun g => (g.symbol, g.entrez))

/-- The exploded rows `(symbol, entrez, one synonym)` produced by
`apply`/`stack`/`join`. -/
def exploded_synonym_rows (genes : List GeneEntry) : List (String × ℕ × String) :=
  genes.flatMap (fun g => g.synonyms.map (fun s => (g.symbol, g.entrez, s)))

/-- `drop_duplicates(['all_synonyms'], keep=False)`: keep exactly the rows
whose synonym value occurs once in the whole column. -/
def dedup_synonym_rows (rows : List (String × ℕ × String)) :
    List (String × ℕ × String) :=
  rows.filter (fun r => rows.countP (fun r2 => r2.2.2 == r.2.2) == 1)

/-- `query('symbol not in all_synonyms')`: keep the rows whose primary
symbol does not occur anywhere in the synonym column of the given rows. -/
def query_synonym_rows (rows : List (String × ℕ × String)) :
    List (String × ℕ × String) :=
  rows.filter (fun r => r.1 ∉ rows.map (fun r2 => r2.2.2))

/-- `synonym_to_entrez = dict(zip(gene_with_syn_df.all_synonyms,
gene_with_syn_df.entrez_gene_id))` after both filters. -/
def synonym_to_entrez (genes : List GeneEntry) : List (String × ℕ) :=
  (query_synonym_rows (dedup_synonym_rows (exploded_synonym_rows genes))).map
    (fun r => (r.2.2, r.2.1))

/-- `symbol_to_entrez.update(synonym_to_entrez)`: with `pyDictGet`, later
(synonym) bindings overwrite earlier (primary) ones. -/
def merged_symbol_map (genes : List GeneEntry) : List (String × ℕ) :=
  symbol_to_entrez genes ++ synonym_to_entrez genes

/-! ## `get_gsea_compressed_matrix` (latent.py lines 198-396)

A weight matrix is a list of named columns whose cells may be missing
(`Option`); the six distribution matrices of the latent model are its
attributes `w_df`, `sqr_w_df`, `pos_w_df`, `neg_w_df`, `pos_high_w_df`,
`neg_high_w_df`.  The GSEA engine (`run_gsea_prerank`, an external gseapy
call) is a parameter `engine` returning `Except`.  The function-local Python
variables `use_df`, `use_pos_df`, `use_neg_df` persist across loop
iterations, so they are threaded as `Option` state (`none` models a name
that is not yet defined; reading it raises `NameError`).  Note that in the
`num_distrib == 2` branches the source passes `use_df=use_df` — the stale
variable — to `_get_gsea_results`, not `use_pos_df`/`use_neg_df`. -/

/-- A gene-by-feature weight matrix: named columns of optional cells. -/
abbrev WMatrix (α : Type) := List (String × List (Option α))

/-- The six distribution matrices stored on the latent model. -/
structure LatentMats (α : Type) where
  w_df : WMatrix α
  sqr_w_df : WMatrix α
  pos_w_df : WMatrix α
  neg_w_df : WMatrix α
  pos_high_w_df : WMatrix α
  neg_high_w_df : WMatrix α
deriving DecidableEq

/-- `subset_algs = self.w_df.columns.str.contains(alg)` (boolean mask over
the columns of `w_df`; no lowercasing here). -/
def subset_algs {α : Type} (w : WMatrix α) (alg : String) : List Bool :=
  w.map (fun c => containsSub alg.data c.1.data)

/-- Positional application of a boolean column mask, as `.loc[:, mask]`. -/
def maskCols {α : Type} (mask : List Bool) (w : WMatrix α) : WMatrix α :=
  ((w.zip mask).filter (fun p => p.2)).map (fun p => p.1)

/-- `_get_compressed_feature`: `weight_df.loc[:, subset_algs].iloc[:, current_z]`;
an out-of-range `current_z` raises `IndexError`. -/
def get_compressed_feature {α : Type} (mask : List Bool) (weight_df : WMatrix α)
    (current_z : ℕ) : Except String (List (Option α)) :=
  match (maskCols mask weight_df).get? current_z with
  | some col => .ok col.2
  | none => .error "IndexError: single positional indexer is out-of-bounds"

/-- One result row: the engine output for the feature that was passed,
plus the provenance attached by `_get_gsea_results`'s `assign`. -/
structure GseaRow (β : Type) where
  res : β
  distrib : String
  algorithm : String
  current_z : ℕ
  full_z : ℕ
  shuffled : Bool
  direction : String
  seed : ℕ
deriving DecidableEq

/-- `_get_gsea_results`: run the engine on `use_df` and attach provenance. -/
def get_gsea_results {α β : Type} (engine : List (Option α) → Except String β)
    (use_df : List (Option α)) (algorithm : String) (current_z full_z : ℕ)
    (distribution : String) (shuffled : Bool) (direction : String) (seed : ℕ) :
    Except String (GseaRow β) :=
  (engine use_df).map (fun r =>
    { res := r, distrib := distribution, algorithm := algorithm,
      current_z := current_z, full_z := full_z, shuffled := shuffled,
      direction := direction, seed := seed })

/-- The three function-local variables of `get_gsea_compressed_matrix` that
persist across loop iterations. -/
structure AggVars (α : Type) where
  use_df : Option (List (Option α))
  use_pos_df : Option (List (Option α))
  use_neg_df : Option (List (Option α))
deriving DecidableEq

/-- `dropna()` on a feature column. -/
def dropna {α : Type} (f : List (Option α)) : List α := f.filterMap id

/-- Reading a Python local that may not have been assigned yet: `NameError`
when it is undefined. -/
def readLocal {α : Type} : Option (List (Option α)) → Except String (List (Option α))
  | some f => .ok f
  | none => .error "NameError: name 'use_df' is not defined"

/-- The body of the innermost (`distrib`) loop.  `full`/`full_squared`
extract a feature, assign `use_df` and run with direction `both`; the
`pos_neg`/`pos_neg_high_weight` branches extract and assign
`use_pos_df`/`use_neg_df`, but the two gated engine calls pass the stale
`use_df` (exactly as the source's `use_df=use_df` does); an unknown
distribution string falls through with `num_distrib == 1` and the stale
`use_df`. -/
def run_distrib {α β : Type} (engine : List (Option α) → Except String β)
    (mats : LatentMats α) (mask : List Bool) (alg : String) (current_z : ℕ)
    (distrib : String) (full_z : ℕ) (shuffled : Bool) (seed : ℕ)
    (vars : AggVars α) (acc : List (GseaRow β)) :
    Except String (AggVars α × List (GseaRow β)) :=
  if distrib = "full" then do
    let f ← get_compressed_feature mask mats.w_df current_z
    let row ← get_gsea_results engine f alg current_z full_z distrib shuffled "both" seed
    .ok ({ vars with use_df := some f }, acc ++ [row])
  else if distrib = "full_squared" then do
    let f ← get_compressed_feature mask mats.sqr_w_df current_z
    let row ← get_gsea_results engine f alg current_z full_z distrib shuffled "both" seed
    .ok ({ vars with use_df := some f }, acc ++ [row])
  else if distrib = "pos_neg" then do
    let fp ← get_compressed_feature mask mats.pos_w_df current_z
    let fn ← get_compressed_feature mask mats.neg_w_df current_z
    let vars' := { vars with use_pos_df := some fp, use_neg_df := some fn }
    let acc' ← if (dropna fp).length ≠ 0 then do
        let u ← readLocal vars'.use_df
        let row ← get_gsea_results engine u alg current_z full_z distrib shuffled "positive" seed
        pure (acc ++ [row])
      else pure acc
    let acc'' ← if (dropna fn).length ≠ 0 then do
        let u ← readLocal vars'.use_df
        let row ← get_gsea_results engine u alg current_z full_z distrib shuffled "negative" seed
        pure (acc' ++ [row])
      else pure acc'
    .ok (vars', acc'')
  else if distrib = "pos_neg_high_weight" then do
    let fp ← get_compressed_feature mask mats.pos_high_w_df current_z
    let fn ← get_compressed_feature mask mats.neg_high_w_df current_z
    let vars' := { vars with use_pos_df := some fp, use_neg_df := some fn }
    let acc' ← if (dropna fp).length ≠ 0 then do
        let u ← readLocal vars'.use_df
        let row ← get_gsea_results engine u alg current_z full_z distrib shuffled "positive" seed
        pure (acc ++ [row])
      else pure acc
    let acc'' ← if (dropna fn).length ≠ 0 then do
        let u ← readLocal vars'.use_df
        let row ← get_gsea_results engine u alg current_z full_z distrib shuffled "negative" seed
        pure (acc' ++ [row])
      else pure acc'
    .ok (vars', acc'')
  else do
    let u ← readLocal vars.use_df
    let row ← get_gsea_results engine u alg current_z full_z distrib shuffled "both" seed
    .ok (vars, acc ++ [row])

/-- The `for distrib in distrib_methods` loop. -/
def fold_distribs {α β : Type} (engine : List (Option α) → Except String β)
    (mats : LatentMats α) (mask : List Bool) (alg : String) (current_z : ℕ)
    (full_z : ℕ) (shuffled : Bool) (seed : ℕ) :
    List String → AggVars α → List (GseaRow β) →
    Except String (AggVars α × List (GseaRow β))
  | [], vars, acc => .ok (vars, acc)
  | d :: ds, vars, acc => do
    let (v, a) ← run_distrib engine mats mask alg current_z d full_z shuffled seed vars acc
    fold_distribs engine mats mask alg current_z full_z shuffled seed ds v a

/-- The `for current_z in range(0, int(self.z_dim))` loop. -/
def fold_z {α β : Type} (engine : List (Option α) → Except String β)
    (mats : LatentMats α) (mask : List Bool) (alg : String) (full_z : ℕ)
    (shuffled : Bool) (seed : ℕ) (distrib_methods : List String) :
    List ℕ → AggVars α → List (GseaRow β) →
    Except String (AggVars α × List (GseaRow β))
  | [], vars, acc => .ok (vars, acc)
  | z :: zs, vars, acc => do
    let (v, a) ← fold_distribs engine mats mask alg z full_z shuffled seed distrib_methods vars acc
    fold_z engine mats mask alg full_z shuffled seed distrib_methods zs v a

/-- The `for alg in algorithms` loop (the mask is computed from `w_df` once
per algorithm). -/
def fold_algs {α β : Type} (engine : List (Option α) → Except String β)
    (mats : LatentMats α) (z_dim full_z : ℕ) (shuffled : Bool) (seed : ℕ)
    (distrib_methods : List String) :
    List String → AggVars α → List (GseaRow β) →
    Except String (AggVars α × List (GseaRow β))
  | [], vars, acc => .ok (vars, acc)
  | alg :: algs, vars, acc => do
    let (v, a) ← fold_z engine mats (subset_algs mats.w_df alg) alg full_z shuffled seed
      distrib_methods (List.range z_dim) vars acc
    fold_algs engine mats z_dim full_z shuffled seed distrib_methods algs v a

/-- `get_gsea_compressed_matrix`: the triple loop, then
`pd.concat(current_z_list)` (which raises `ValueError` on an empty list). -/
def get_gsea_compressed_matrix {α β : Type}
    (engine : List (Option α) → Except String β) (mats : LatentMats α)
    (z_dim : ℕ) (algorithms distrib_methods : List String) (full_z : ℕ)
    (shuffled : Bool) (seed : ℕ) : Except String (List (GseaRow β)) := do
  let (_, acc) ← fold_algs engine mats z_dim full_z shuffled seed distrib_methods
    algorithms ⟨none, none, none⟩ []
  if acc.isEmpty then .error "ValueError: No objects to concatenate" else .ok acc

/-! ## Concrete instances used to evaluate the embedding -/

/-- A one-column latent model (algorithm `vae`, weights `[2, -3]`) with its
positive tail `[2, NaN]` and negative tail `[NaN, -3]`. -/
def matsPosNeg : LatentMats ℚ :=
  { w_df := [("vae_0", [some 2, some (-3)])],
    sqr_w_df := [("vae_0", [some 4, some 9])],
    pos_w_df := [("vae_0", [some 2, none])],
    neg_w_df := [("vae_0", [none, some (-3)])],
    pos_high_w_df := [("vae_0", [none, none])],
    neg_high_w_df := [("vae_0", [none, none])] }

/-- A one-gene, one-column latent model with weight 3 (squared view 9). -/
def matsFail : LatentMats ℚ :=
  { w_df := [("vae_0", [some 3])],
    sqr_w_df := [("vae_0", [some 9])],
    pos_w_df := [("vae_0", [some 3])],
    neg_w_df := [("vae_0", [none])],
    pos_high_w_df := [("vae_0", [none])],
    neg_high_w_df := [("vae_0", [none])] }

/-- An enrichment engine that fails exactly on the squared view of
`matsFail` and echoes its input otherwise. -/
def engineFailSquared : List (Option ℚ) → Except String (List (Option ℚ)) :=
  fun f => if f = [some 9] then .error "boom" else .ok f

/-- An enrichment engine that fails on every input. -/
def engineAlwaysFail : List (Option ℚ) → Except String Bool :=
  fun _ => Except.error "boom"

/-- Gene table in which the synonym `BBB` of gene `AAA` collides with the
primary symbol of the gene `BBB`. -/
def genesSynPrimary : List GeneEntry := [⟨"AAA", 1, ["BBB"]⟩, ⟨"BBB", 2, ["CCC"]⟩]

/-- Gene table in which the synonym `XXX` occurs under two different
primary genes. -/
def genesSynDup : List GeneEntry := [⟨"AAA", 1, ["XXX"]⟩, ⟨"DDD", 4, ["XXX"]⟩]

/-- A latent-model dictionary state before any load. -/
def stUnloaded : LMDictState := ⟨false, none⟩

/-- A two-row fetched gene table; only the first row is protein-coding. -/
def fetchedSmall : List RawGeneRow :=
  [⟨"protein-coding", 1, "TP53"⟩, ⟨"pseudogene", 2, "JUNK"⟩]

end BioBombe

deriving instance DecidableEq for Except

namespace BioBombe

/-! ## Theorems -/

/-- Lookup of a key that never occurs in an association list is `none`
(a `Series.map(dict)` sends unmapped identifiers to NaN). -/
theorem pyDictGet_eq_none_of_not_mem {κ ν : Type} [DecidableEq κ]
    (pairs : List (κ × ν)) (g : κ) (h : g ∉ pairs.map Prod.fst) :
    pyDictGet pairs g = none := by
  induction pairs with
  | nil => rfl
  | cons p rest ih =>
    simp only [List.map_cons, List.mem_cons, not_or] at h
    rw [pyDictGet, ih h.2, if_neg h.1]

/-- C2: for every candidate list, gene-set collection and background list,
`run_overrepresentation` unions the background with the candidates and
deduplicates (`G` is the size of that union), and for each gene set with
`m = |set ∩ candidates|`, `N = |candidates|`, `P = |set|` it runs the
two-sided Fisher exact test on `[[m+1, N-m+1], [P-m+1, G-N-P+m+1]]`
(pseudocount +1 in every cell) and returns that test's odds ratio and
p-value for that set. -/
theorem run_overrepresentation_spec (gl bg : List String)
    (dict : List (String × List String)) :
    (run_overrepresentation ⟨gl, dict, bg⟩).2 =
      dict.mapM (fun gs =>
        (fisher_exact (((gs.2.toFinset ∩ gl.toFinset).card : ℤ) + 1)
          ((gl.toFinset.card : ℤ) - (gs.2.toFinset ∩ gl.toFinset).card + 1)
          ((gs.2.toFinset.card : ℤ) - (gs.2.toFinset ∩ gl.toFinset).card + 1)
          (((bg.toFinset ∪ gl.toFinset).card : ℤ) - gl.toFinset.card - gs.2.toFinset.card
            + (gs.2.toFinset ∩ gl.toFinset).card + 1)).map
          (fun op => (gs.1, op.2, op.1))) := by
  have hcard : ∀ l : List String, l.dedup.length = l.toFinset.card :=
    fun l => (List.card_toFinset l).symm
  have hinter : ∀ l1 l2 : List String,
      (l1.dedup.filter (fun g => g ∈ l2.dedup)).length
        = (l1.toFinset ∩ l2.toFinset).card := by
    intro l1 l2
    have hnd : (l1.dedup.filter (fun g => g ∈ l2.dedup)).Nodup :=
      l1.nodup_dedup.filter _
    rw [← List.toFinset_card_of_nodup hnd]
    congr 1
    ext a
    simp [List.mem_filter, List.mem_dedup]
  have hG : ((bg ++ gl).dedup.length) = (bg.toFinset ∪ gl.toFinset).card := by
    rw [← List.card_toFinset, List.toFinset_append]
  show (⟨gl, dict, bg⟩ : OverrepState).gene_set_dict.mapM
      (overrep_row (⟨gl, dict, bg⟩ : OverrepState).gene_list
        ((⟨gl, dict, bg⟩ : OverrepState).background_genes ++ gl).dedup.length) = _
  congr 1
  funext gs
  show overrep_row gl ((bg ++ gl).dedup.length) gs = _
  rw [overrep_row]
  simp only [hinter, hcard, hG, List.toFinset_append]

/-- C9: `run_overrepresentation` extends the caller's `background_genes`
list in place by the whole `gene_list` (Python `+=` on a list), so it gets
longer by `gene_list.length`; `gene_list` and `gene_set_dict` are not
mutated. -/
theorem run_overrepresentation_frame (st : OverrepState) :
    (run_overrepresentation st).1.background_genes = st.background_genes ++ st.gene_list
    ∧ (run_overrepresentation st).1.background_genes.length
        = st.background_genes.length + st.gene_list.length
    ∧ (run_overrepresentation st).1.gene_list = st.gene_list
    ∧ (run_overrepresentation st).1.gene_set_dict = st.gene_set_dict := by
  refine ⟨rfl, ?_, rfl, rfl⟩
  simp [run_overrepresentation]

/-- C3 counterexample: on candidates `{A,B,C}`, background `{A,B,C,D,E}`,
gene set `{A,B}`, the code returns p-value `11/21` and odds ratio `9/2`,
while the two-sided Fisher exact test of the claimed table `[[3,2],[1,5]]`
gives odds ratio `15/2` and p-value `8/33` — so the claim's table and the
values it predicts are wrong. -/
theorem overrep_example_counterexample :
    (run_overrepresentation ⟨["A","B","C"], [("S", ["A","B"])], ["A","B","C","D","E"]⟩).2
        = .ok [("S", 11/21, 9/2)]
    ∧ fisher_exact 3 2 1 5 = .ok (15/2, 8/33)
    ∧ ((11 : ℚ)/21, (9 : ℚ)/2) ≠ ((8 : ℚ)/33, (15 : ℚ)/2) := by
  have hfe : fisher_exact 3 2 1 3 = .ok (9/2, 11/21) := by
    have hn : fisher_numer 3 2 1 3 = 66 := by decide
    have hd : fisher_denom 3 2 1 3 = 126 := by decide
    rw [fisher_exact, if_pos (by norm_num),
      show ((3:ℤ).toNat) = 3 from rfl, show ((2:ℤ).toNat) = 2 from rfl,
      show ((1:ℤ).toNat) = 1 from rfl, fisher_two_sided, hn, hd]
    norm_num
  have h1 : (run_overrepresentation
      ⟨["A","B","C"], [("S", ["A","B"])], ["A","B","C","D","E"]⟩).2
      = (fisher_exact 3 2 1 3).map (fun op => [("S", op.2, op.1)]) := rfl
  have hfe5 : fisher_exact 3 2 1 5 = .ok (15/2, 8/33) := by
    have hn : fisher_numer 3 2 1 5 = 80 := by decide
    have hd : fisher_denom 3 2 1 5 = 330 := by decide
    rw [fisher_exact, if_pos (by norm_num),
      show ((3:ℤ).toNat) = 3 from rfl, show ((2:ℤ).toNat) = 2 from rfl,
      show ((1:ℤ).toNat) = 1 from rfl, show ((5:ℤ).toNat) = 5 from rfl,
      fisher_two_sided, hn, hd]
    norm_num
  refine ⟨?_, hfe5, by norm_num⟩
  rw [h1, hfe]
  rfl

/-- C3 amended: with `m = 2`, `N = 3`, `P = 2`, `G = 5` the contingency
table is `[[3,2],[1,3]]` (the fourth cell is `G-N-P+m+1 = 3`, not 5), and
the returned odds ratio `9/2` and p-value `11/21` are exactly the two-sided
Fisher exact-test values for that table. -/
theorem overrep_example_amended :
    (run_overrepresentation ⟨["A","B","C"], [("S", ["A","B"])], ["A","B","C","D","E"]⟩).2
        = .ok [("S", 11/21, 9/2)]
    ∧ ((2 : ℤ) + 1, (3 : ℤ) - 2 + 1, (2 : ℤ) - 2 + 1, (5 : ℤ) - 3 - 2 + 2 + 1)
        = ((3 : ℤ), (2 : ℤ), (1 : ℤ), (3 : ℤ))
    ∧ fisher_exact 3 2 1 3 = .ok (9/2, 11/21) := by
  have hfe : fisher_exact 3 2 1 3 = .ok (9/2, 11/21) := by
    have hn : fisher_numer 3 2 1 3 = 66 := by decide
    have hd : fisher_denom 3 2 1 3 = 126 := by decide
    rw [fisher_exact, if_pos (by norm_num),
      show ((3:ℤ).toNat) = 3 from rfl, show ((2:ℤ).toNat) = 2 from rfl,
      show ((1:ℤ).toNat) = 1 from rfl, fisher_two_sided, hn, hd]
    norm_num
  exact ⟨by
    rw [show (run_overrepresentation
        ⟨["A","B","C"], [("S", ["A","B"])], ["A","B","C","D","E"]⟩).2
        = (fisher_exact 3 2 1 3).map (fun op => [("S", op.2, op.1)]) from rfl, hfe]
    rfl, by decide, hfe⟩

/-- C4: a cell of `pos_high_w_df` is true exactly when the weight is at
least the column mean plus `std_dev` times the column (sample) standard
deviation, and a cell of `neg_high_w_df` exactly when it is at most the
mean minus that amount; for a column with mean 0 and standard deviation 1
and the default multiplier 2.5, exactly the weights `≥ 5/2` are flagged
positive, exactly those `≤ -5/2` negative, and weights strictly between are
flagged in neither. -/
theorem high_weight_threshold (col : List ℚ) (std_dev x : ℚ) :
    (pos_high_w_cell col std_dev x
      ↔ (x : ℝ) ≥ (colMean col : ℝ) + (std_dev : ℝ) * Real.sqrt ((sampleVar col : ℚ) : ℝ))
    ∧ (neg_high_w_cell col std_dev x
      ↔ (x : ℝ) ≤ (colMean col : ℝ) - (std_dev : ℝ) * Real.sqrt ((sampleVar col : ℚ) : ℝ))
    ∧ (colMean col = 0 → Real.sqrt ((sampleVar col : ℚ) : ℝ) = 1 →
        ((pos_high_w_cell col (5/2) x ↔ (5/2 : ℚ) ≤ x)
         ∧ (neg_high_w_cell col (5/2) x ↔ x ≤ -(5/2))
         ∧ (-(5/2) < x → x < (5/2 : ℚ) →
              ¬pos_high_w_cell col (5/2) x ∧ ¬neg_high_w_cell col (5/2) x))) := by
  refine ⟨Iff.rfl, Iff.rfl, fun hm hs => ?_⟩
  have hm' : ((colMean col : ℚ) : ℝ) = 0 := by rw [hm]; norm_num
  have hpos : pos_high_w_cell col (5/2) x ↔ (5/2 : ℚ) ≤ x := by
    rw [pos_high_w_cell, hm', hs, zero_add, mul_one]
    exact ⟨fun h => by exact_mod_cast h, fun h => by exact_mod_cast h⟩
  have hneg : neg_high_w_cell col (5/2) x ↔ x ≤ -(5/2) := by
    rw [neg_high_w_cell, hm', hs, zero_sub, mul_one]
    exact ⟨fun h => by exact_mod_cast h, fun h => by exact_mod_cast h⟩
  refine ⟨hpos, hneg, fun hlo hhi => ⟨?_, ?_⟩⟩
  · rw [hpos]; intro h; linarith
  · rw [hneg]; intro h; linarith

/-- Witness for C4 on the column `[1, -1, 0]` (mean 0, sample standard
deviation 1): weight 3 is flagged `pos_high`, weight 1 is not. -/
theorem high_weight_threshold_witness :
    pos_high_w_cell [1, -1, 0] (5/2) 3 ∧ ¬pos_high_w_cell [1, -1, 0] (5/2) 1 := by
  have hm : colMean [1, -1, 0] = 0 := by simp [colMean]
  have hv : sampleVar [1, -1, 0] = 1 := by norm_num [sampleVar, colMean]
  have hs : Real.sqrt ((sampleVar [1, -1, 0] : ℚ) : ℝ) = 1 := by
    rw [hv]; norm_num
  constructor
  · exact ((high_weight_threshold [1, -1, 0] (5/2) 3).2.2 hm hs).1.mpr (by norm_num)
  · intro hp
    have := ((high_weight_threshold [1, -1, 0] (5/2) 1).2.2 hm hs).1.mp hp
    norm_num at this

/-- C1: evaluation of the aggregator at the failing input.  With
`distrib_methods = ["full", "pos_neg"]` on `matsPosNeg`, whose positive tail
is `[2, NaN]` and negative tail `[NaN, -3]`, the engine (here the identity,
so each result row records the ranked scores it received) is invoked for
directions `positive` and `negative` with the stale `use_df` — the full
view `[2, -3]` — not with the tails: the source passes `use_df=use_df` in
both `num_distrib == 2` calls. -/
theorem gsea_pos_neg_stale_use_df :
    get_gsea_compressed_matrix (fun f => Except.ok f) matsPosNeg 1 ["vae"]
        ["full", "pos_neg"] 1 false 0
      = .ok [
        ⟨[some 2, some (-3)], "full", "vae", 0, 1, false, "both", 0⟩,
        ⟨[some 2, some (-3)], "pos_neg", "vae", 0, 1, false, "positive", 0⟩,
        ⟨[some 2, some (-3)], "pos_neg", "vae", 0, 1, false, "negative", 0⟩]
    ∧ matsPosNeg.pos_w_df = [("vae_0", [some 2, none])]
    ∧ ([some (2:ℚ), some (-3)] ≠ [some (2:ℚ), none]) := by decide

/-- C5 counterexample: with `distrib_methods = ["full", "full_squared"]` and
an engine that fails only on the squared view, the whole aggregation returns
the error — the successful sibling combination's row is discarded, no
results table is produced (with `["full"]` alone the same run succeeds). -/
theorem gsea_failure_aborts_batch :
    get_gsea_compressed_matrix engineFailSquared matsFail 1 ["vae"]
        ["full", "full_squared"] 1 false 0
      = .error "boom"
    ∧ get_gsea_compressed_matrix engineFailSquared matsFail 1 ["vae"] ["full"] 1 false 0
      = .ok [⟨[some 3], "full", "vae", 0, 1, false, "both", 0⟩] := by decide

/-- C5 amended: nothing is caught — a failure while processing the first
(algorithm, dimension, distribution) combination propagates out of
`get_gsea_compressed_matrix` unchanged, aborting every remaining sibling
combination and producing no results table. -/
theorem gsea_error_propagates {α β : Type} (engine : List (Option α) → Except String β)
    (mats : LatentMats α) (n full_z : ℕ) (shuffled : Bool) (seed : ℕ)
    (a : String) (algs : List String) (d : String) (ds : List String) (e : String)
    (h : run_distrib engine mats (subset_algs mats.w_df a) a 0 d full_z shuffled seed
        ⟨none, none, none⟩ [] = .error e) :
    get_gsea_compressed_matrix engine mats (n + 1) (a :: algs) (d :: ds) full_z shuffled seed
      = .error e := by
  simp [get_gsea_compressed_matrix, fold_algs, fold_z, fold_distribs,
    List.range_succ_eq_map, h, Bind.bind, Except.bind]

/-- Witness for the C5 amended theorem: an always-failing engine on
`matsFail` makes the whole run return its error. -/
theorem gsea_error_propagates_witness :
    get_gsea_compressed_matrix engineAlwaysFail matsFail 1 ["vae"] ["full"] 1 false 0
      = .error "boom" :=
  gsea_error_propagates engineAlwaysFail matsFail 0 1 false 0 "vae" [] "full" [] "boom"
    (by decide)

/-- C6 counterexample: in `genesSynPrimary` the synonym `BBB` of gene
`AAA` (entrez 1) equals the primary symbol of gene `BBB` (entrez 2), yet the
row survives both filters: the synonym map keeps the key `BBB` and the merge
overwrites the primary entry `BBB → 2` with `BBB → 1`. -/
theorem synonym_primary_collision :
    synonym_to_entrez genesSynPrimary = [("BBB", 1)]
    ∧ "BBB" ∈ genesSynPrimary.map GeneEntry.symbol
    ∧ pyDictGet (symbol_to_entrez genesSynPrimary) "BBB" = some 2
    ∧ pyDictGet (merged_symbol_map genesSynPrimary) "BBB" = some 1 := by decide

/-- C6 amended: a synonym occurring under two or more different primary
genes never survives into the synonym map (`drop_duplicates(keep=False)`
removes every duplicated synonym value); and the symbol filter drops exactly
the rows whose own primary symbol occurs among the deduplicated synonym
strings — not rows whose synonym equals a primary symbol. -/
theorem synonym_map_spec (genes : List GeneEntry) :
    (∀ s : String,
      (∃ r1 ∈ exploded_synonym_rows genes, ∃ r2 ∈ exploded_synonym_rows genes,
        r1.2.2 = s ∧ r2.2.2 = s ∧ r1.1 ≠ r2.1) →
      s ∉ (synonym_to_entrez genes).map Prod.fst)
    ∧ (∀ r ∈ query_synonym_rows (dedup_synonym_rows (exploded_synonym_rows genes)),
        r.1 ∉ (dedup_synonym_rows (exploded_synonym_rows genes)).map (fun r2 => r2.2.2)) := by
  constructor
  · rintro s ⟨r1, h1, r2, h2, e1, e2, hne⟩ hmem
    simp only [synonym_to_entrez, List.map_map, List.mem_map, Function.comp] at hmem
    obtain ⟨row, hrow, hrowEq⟩ := hmem
    simp only [query_synonym_rows, List.mem_filter] at hrow
    obtain ⟨hrowDedup, -⟩ := hrow
    simp only [dedup_synonym_rows, List.mem_filter] at hrowDedup
    obtain ⟨hrowExp, hcount⟩ := hrowDedup
    have hcount' : (exploded_synonym_rows genes).countP
        (fun r2 => r2.2.2 == row.2.2) = 1 := by
      simpa using hcount
    have hs1 : r1.2.2 = row.2.2 := by rw [e1, ← hrowEq]
    have hs2 : r2.2.2 = row.2.2 := by rw [e2, ← hrowEq]
    have hr1 : r1 ∈ (exploded_synonym_rows genes).filter (fun r2 => r2.2.2 == row.2.2) :=
      List.mem_filter.mpr ⟨h1, by simp [hs1]⟩
    have hr2 : r2 ∈ (exploded_synonym_rows genes).filter (fun r2 => r2.2.2 == row.2.2) :=
      List.mem_filter.mpr ⟨h2, by simp [hs2]⟩
    have hne' : r1 ≠ r2 := fun h => hne (by rw [h])
    have hsub : ({r1, r2} : Finset (String × ℕ × String)) ⊆
        ((exploded_synonym_rows genes).filter (fun r2 => r2.2.2 == row.2.2)).toFinset := by
      intro y hy
      simp only [Finset.mem_insert, Finset.mem_singleton] at hy
      rcases hy with rfl | rfl <;> simp only [List.mem_toFinset] <;> assumption
    have h2le : 2 ≤ ((exploded_synonym_rows genes).filter
        (fun r2 => r2.2.2 == row.2.2)).length := by
      calc 2 = ({r1, r2} : Finset (String × ℕ × String)).card := (Finset.card_pair hne').symm
        _ ≤ ((exploded_synonym_rows genes).filter
              (fun r2 => r2.2.2 == row.2.2)).toFinset.card := Finset.card_le_card hsub
        _ ≤ _ := List.toFinset_card_le _
    rw [List.countP_eq_length_filter] at hcount'
    omega
  · intro r hr
    simp only [query_synonym_rows, List.mem_filter] at hr
    simpa using hr.2

/-- Witness for the C6 amended theorem: the synonym `XXX`, which occurs
under the two different genes `AAA` and `DDD`, is absent from the synonym
map of `genesSynDup`. -/
theorem synonym_map_spec_witness :
    "XXX" ∉ (synonym_to_entrez genesSynDup).map Prod.fst :=
  (synonym_map_spec genesSynDup).1 "XXX"
    ⟨("AAA", 1, "XXX"), by decide, ("DDD", 4, "XXX"), by decide, rfl, rfl, by decide⟩

/-- C7: `translate_gene_ids` raises the invalid-namespace `ValueError`
exactly when `translate_from` or `translate_to` is outside
`{entrez_gene_id, symbol}`; with valid namespaces it returns the input list
mapped through the dictionary built from the (lazily loaded) protein-coding
gene table, and any identifier absent from that mapping becomes the missing
marker `none` rather than an error. -/
theorem translate_gene_ids_spec (st : LMDictState) (fetched : List RawGeneRow)
    (gl : List Gid) (f t : String) :
    ((translate_gene_ids st fetched gl f t).2
        = .error "Translation for 'entrez_gene_id' and 'symbol' only"
      ↔ (f ∉ translate_choices ∨ t ∉ translate_choices))
    ∧ (f ∈ translate_choices → t ∈ translate_choices →
        (translate_gene_ids st fetched gl f t).2
          = .ok (gl.map (pyDictGet (gene_mapper
              ((if st.is_gene_dictionary_loaded then st
                else load_gene_dict fetched st).gene_dictionary_df.getD []) f t))))
    ∧ (∀ (pairs : List (Gid × Gid)) (g : Gid),
        g ∉ pairs.map Prod.fst → pyDictGet pairs g = none) := by
  refine ⟨?_, fun hf ht => ?_, pyDictGet_eq_none_of_not_mem⟩
  · by_cases h : f ∉ translate_choices ∨ t ∉ translate_choices
    · simp [translate_gene_ids, h]
    · simp [translate_gene_ids, h]
  · have h : ¬(f ∉ translate_choices ∨ t ∉ translate_choices) := by
      push_neg
      exact ⟨hf, ht⟩
    simp [translate_gene_ids, h]

/-- Witness for C7: translating entrez ids 1 and 2 to symbols against
`fetchedSmall` maps 1 to `TP53` and the unmapped (non-protein-coding) id 2
to the missing marker. -/
theorem translate_gene_ids_spec_witness :
    (translate_gene_ids stUnloaded fetchedSmall [.inl 1, .inl 2]
        "entrez_gene_id" "symbol").2
      = .ok [some (.inr "TP53"), none] := by
  have h := (translate_gene_ids_spec stUnloaded fetchedSmall [.inl 1, .inl 2]
    "entrez_gene_id" "symbol").2.1 (by decide) (by decide)
  rw [h]
  decide

/-- C10: when the namespace check fails, `translate_gene_ids` raises before
touching the latent-model state: the returned state is the input state, so
in particular `is_gene_dictionary_loaded` keeps its prior value and the
dictionary is not loaded. -/
theorem translate_invalid_preserves_state (st : LMDictState) (fetched : List RawGeneRow)
    (gl : List Gid) (f t : String)
    (h : f ∉ translate_choices ∨ t ∉ translate_choices) :
    (translate_gene_ids st fetched gl f t).1 = st
    ∧ (translate_gene_ids st fetched gl f t).1.is_gene_dictionary_loaded
        = st.is_gene_dictionary_loaded
    ∧ (translate_gene_ids st fetched gl f t).2
        = .error "Translation for 'entrez_gene_id' and 'symbol' only" := by
  simp [translate_gene_ids, h]

/-- Witness for C10: an invalid source namespace leaves the unloaded state
unchanged. -/
theorem translate_invalid_preserves_state_witness :
    (translate_gene_ids stUnloaded fetchedSmall [] "ensembl" "symbol").1 = stUnloaded :=
  (translate_invalid_preserves_state stUnloaded fetchedSmall [] "ensembl" "symbol"
    (by decide)).1

/-- C8 counterexample: with filter token `PCA`, the column `PCA_0` matches
case-insensitively (as does `pca_1`), yet `__init__` keeps only `pca_1`:
the token is lowercased but the comparison itself is case-sensitive. -/
theorem init_filter_case_sensitive :
    init_filter_columns ["PCA_0", "pca_1"] (some "PCA") = ["pca_1"]
    ∧ ci_contains "PCA" "PCA_0" = true
    ∧ ci_contains "PCA" "pca_1" = true := by decide

/-- C8 amended: with a truthy algorithm filter, exactly the columns whose
name contains the lowercased filter token as a case-sensitive substring are
retained (with no filter all columns are kept), and the row keys are
normalized to string form. -/
theorem init_filter_columns_spec {ι : Type} (cols : List String) (a : String)
    (ha : a.data ≠ []) (idx : List ι) (toStr : ι → String) :
    (∀ c, c ∈ init_filter_columns cols (some a)
        ↔ c ∈ cols ∧ containsSub (strLowerL a.data) c.data = true)
    ∧ init_filter_columns cols none = cols
    ∧ norm_index idx toStr = idx.map toStr := by
  refine ⟨fun c => ?_, rfl, rfl⟩
  simp [init_filter_columns, ha, List.mem_filter]

/-- Witness for the C8 amended theorem: `pca_1` is retained for the token
`PCA`. -/
theorem init_filter_columns_spec_witness :
    "pca_1" ∈ init_filter_columns ["PCA_0", "pca_1"] (some "PCA") :=
  ((init_filter_columns_spec ["PCA_0", "pca_1"] "PCA" (by decide)
    ([] : List String) id).1 "pca_1").mpr (by decide)

end BioBombe
